import Mathlib

/-!
# Verification of the chitram resource-control and resilience core

Shallow embedding of the four core components of `backend/app` — the
admission controller (`services/concurrency.py`), the rate limiter
(`services/rate_limiter.py`), the cache-aside layer (`services/cache_service.py`
together with the dict/model converters of `services/image_service.py`), and
the storage abstraction (`services/storage_service.py`) — with theorems
settling the spec's claims about them.

Modelling conventions:
* Python strings are modelled as `List Nat` of Unicode codepoints (`Str`);
  notable codepoints: `/` = 47, `\` = 92, NUL = 0, `.` = 46, `-` = 45,
  `:` = 58, `T` = 84, `+` = 43, `0` = 48.
* Fallible calls return `Except`/`Option`; a raised exception is the
  `.error`/`none` case.
* External collaborators (Redis, the filesystem, the MinIO client) are
  modelled at their interface: a key-value state plus the documented
  semantics of the primitives the code issues against them.
-/

namespace Chitram

/-- Python strings as lists of Unicode codepoints. -/
abbrev Str := List Nat

/-! ## Admission controller — `app/services/concurrency.py`

`UploadSemaphore` wraps `asyncio.Semaphore(limit)` and mirrors an
`_active_count`.  The wrapped `asyncio.Semaphore` is an unbounded counting
semaphore: its internal value (`semValue` here) starts at `limit`,
`acquire` succeeds exactly when it is positive (otherwise the caller waits
and, in `acquire_with_timeout`, times out returning `False` with no state
change), and `release` increments it without any ceiling. -/

/-- State of one `UploadSemaphore`: the configured `limit`, the wrapped
`asyncio.Semaphore`'s internal counter, and the mirrored `_active_count`
(an `Int`, as a Python int, so that "never negative" is a statement and
not a typing artifact). -/
structure UploadSemaphore where
  limit : Nat
  semValue : Nat
  activeCount : Int
deriving DecidableEq, Repr

/-- `UploadSemaphore.__post_init__`: fresh semaphore of the given limit. -/
def UploadSemaphore.init (limit : Nat) : UploadSemaphore :=
  { limit := limit, semValue := limit, activeCount := 0 }

/-- `available_slots` property: `self.limit - self._active_count`. -/
def UploadSemaphore.availableSlots (s : UploadSemaphore) : Int :=
  (s.limit : Int) - s.activeCount

/-- `acquire_with_timeout`: succeeds (acquiring a permit and incrementing
`_active_count`) when a permit is available; otherwise the wait times out
and it returns `False` with no state change. -/
def UploadSemaphore.acquireWithTimeout (s : UploadSemaphore) :
    UploadSemaphore × Bool :=
  if 0 < s.semValue then
    ({ s with semValue := s.semValue - 1, activeCount := s.activeCount + 1 }, true)
  else
    (s, false)

/-- `release`: `self._semaphore.release()` (unconditional increment of the
underlying counter) then `self._active_count = max(0, self._active_count - 1)`. -/
def UploadSemaphore.release (s : UploadSemaphore) : UploadSemaphore :=
  { s with semValue := s.semValue + 1, activeCount := max 0 (s.activeCount - 1) }

/-- One call against the semaphore in a sequential trace. -/
inductive SemOp where
  | acquire
  | release
deriving DecidableEq, Repr

/-- Execute a sequential trace of `acquire_with_timeout`/`release` calls. -/
def execOps (s : UploadSemaphore) : List SemOp → UploadSemaphore
  | [] => s
  | SemOp.acquire :: ops => execOps (s.acquireWithTimeout).1 ops
  | SemOp.release :: ops => execOps s.release ops

/-- A trace is matched when every `release` is issued while `_active_count`
is positive, i.e. each release pairs with an earlier successful acquire. -/
def matchedRun (s : UploadSemaphore) : List SemOp → Bool
  | [] => true
  | SemOp.acquire :: ops => matchedRun (s.acquireWithTimeout).1 ops
  | SemOp.release :: ops => (0 < s.activeCount) && matchedRun s.release ops

/-- Invariant tying the mirrored count to the wrapped semaphore. -/
def SemInv (limit : Nat) (s : UploadSemaphore) : Prop :=
  s.limit = limit ∧ 0 ≤ s.activeCount ∧ s.activeCount + s.semValue = limit

/-! ## Rate limiter — `app/services/rate_limiter.py`

`RateLimiter.check` issues one atomic Redis pipeline per call:
`INCR key; EXPIRE key window NX; TTL key`, then decides from the
post-increment count and the TTL.  The Redis collaborator is modelled as
the state of the one counter key: `none` (absent) or `some (count, remTtl)`
with `remTtl` the remaining time-to-live in seconds.  Keys created by this
limiter always carry an expiry (the `EXPIRE ... NX` lands on the same
pipeline as the creating `INCR`), so a live key's TTL is positive. -/

/-- Outcome of a `check` call, mirroring `RateLimitResult`. -/
structure RateLimitResult where
  allowed : Bool
  current_count : Nat
  limit : Nat
  remaining : Int
  retry_after : Option Int
deriving DecidableEq, Repr

/-- State of the window counter key in Redis: absent, or
(post-`INCR` count, remaining TTL in seconds, positive while live). -/
abbrev RLState := Option (Nat × Nat)

/-- `d` seconds elapse: the key's TTL runs down, and the key expires (is
destroyed by Redis) when the TTL reaches zero. -/
def rlAge (d : Nat) : RLState → RLState
  | none => none
  | some (c, t) => if d < t then some (c, t - d) else none

/-- The atomic pipeline `INCR; EXPIRE window NX; TTL`: returns the new key
state, the post-increment count, and the TTL read (as an `Int`, the Redis
reply type). A fresh key is created with count 1 and, since it has no
expiry yet, `EXPIRE ... NX` arms the window at `W`; an existing key keeps
its expiry (`NX` is a no-op) and just counts up. -/
def rlPipeline (window : Nat) : RLState → RLState × Nat × Int
  | none => (some (1, window), 1, (window : Int))
  | some (c, t) => (some (c + 1, t), c + 1, (t : Int))

/-- Decision logic of `RateLimiter.check` (lines 110–132): deny with
`remaining = 0` and `retry_after = ttl` (falling back to the window length
when the TTL read is non-positive) once the count exceeds the limit;
otherwise allow with `remaining = max(0, limit - count)`. -/
def rlDecision (limit window : Nat) (count : Nat) (ttl : Int) : RateLimitResult :=
  if limit < count then
    { allowed := false, current_count := count, limit := limit, remaining := 0,
      retry_after := some (if 0 < ttl then ttl else (window : Int)) }
  else
    { allowed := true, current_count := count, limit := limit,
      remaining := max 0 ((limit : Int) - (count : Int)), retry_after := none }

/-- `RateLimiter.check` on a healthy store: run the pipeline, then decide. -/
def rlCheck (limit window : Nat) (st : RLState) : RLState × RateLimitResult :=
  let (st', count, ttl) := rlPipeline window st
  (st', rlDecision limit window count ttl)

/-- The fail-open result: `allowed=True, current_count=0, remaining=limit`. -/
def rlFailOpen (limit : Nat) : RateLimitResult :=
  { allowed := true, current_count := 0, limit := limit,
    remaining := (limit : Int), retry_after := none }

/-- What the one Redis round trip of `check` can come back with. -/
inductive RedisOutcome where
  /-- A `RedisError` was raised by the pipeline call. -/
  | err
  /-- The pipeline executed against key state `st`. -/
  | ok (st : RLState)

/-- `RateLimiter.check` in full: the administrative `enabled` flag and the
optional client are checked first (fail-open), then the pipeline runs and
any `RedisError` is caught (fail-open).  Returns the key state (unchanged
when the call never reached or errored in Redis) and the decision. -/
def rlCheckFull (enabled hasClient : Bool) (limit window : Nat)
    (outcome : RedisOutcome) : Option RLState × RateLimitResult :=
  if !enabled then (none, rlFailOpen limit)
  else if !hasClient then (none, rlFailOpen limit)
  else match outcome with
    | RedisOutcome.err => (none, rlFailOpen limit)
    | RedisOutcome.ok st =>
        let (st', r) := rlCheck limit window st
        (some st', r)

/-- A run of `check` calls against one key: perform the first call, then for
each listed delay let that much time pass and call again.  Returns the final
key state and the final call's result. -/
def rlRunAux (limit window : Nat) (st : RLState) (r : RateLimitResult) :
    List Nat → RLState × RateLimitResult
  | [] => (st, r)
  | d :: ds =>
      let (st', r') := rlCheck limit window (rlAge d st)
      rlRunAux limit window st' r' ds

/-- `1 + ds.length` calls to `check` starting from an absent key, with
`ds` the delays between consecutive calls. -/
def rlTrace (limit window : Nat) (ds : List Nat) : RLState × RateLimitResult :=
  let (st, r) := rlCheck limit window none
  rlRunAux limit window st r ds

/-! ## Storage abstraction — `app/services/storage_service.py`

Both backends are modelled over the state of the blob store: a finite map
from storage key to stored bytes (`Blob`).  The filesystem collaborator of
`LocalStorageBackend` (`path.exists`, open/read/write, `os.remove`) and the
MinIO client of `MinioStorageBackend` (`get_object`, `stat_object`,
`remove_object`, each raising `S3Error` with a code) are modelled at this
interface. -/

/-- Stored bytes. -/
abbrev Blob := List Nat

/-- A blob-store state: what bytes live under which storage key. -/
abbrev BlobStore := Str → Option Blob

/-- The error taxonomy the storage layer surfaces: the distinct NotFound
condition (`FileNotFoundError`) versus any other storage failure. -/
inductive StorageErr where
  | notFound
  | other
deriving DecidableEq, Repr

/-- `LocalStorageBackend.get`: `FileNotFoundError` when the path does not
exist, otherwise the file's bytes. -/
def localGet (st : BlobStore) (key : Str) : Except StorageErr Blob :=
  match st key with
  | none => Except.error StorageErr.notFound
  | some b => Except.ok b

/-- `LocalStorageBackend.delete`: `False` when the path does not exist
(no exception), otherwise remove the file and return `True`. -/
def localDelete (st : BlobStore) (key : Str) :
    BlobStore × Except StorageErr Bool :=
  match st key with
  | none => (st, Except.ok false)
  | some _ => (fun k => if k = key then none else st k, Except.ok true)

/-- `LocalStorageBackend.save`: create parent directories and write. -/
def localSave (st : BlobStore) (key : Str) (data : Blob) : BlobStore :=
  fun k => if k = key then some data else st k

/-- `LocalStorageBackend.exists`. -/
def localExists (st : BlobStore) (key : Str) : Bool :=
  (st key).isSome

/-- An `S3Error` code from the MinIO client. -/
inductive S3Code where
  | noSuchKey
  | otherCode
deriving DecidableEq, Repr

/-- MinIO client `get_object`: the object's bytes, or `S3Error` with code
`NoSuchKey` when absent. -/
def s3GetObject (st : BlobStore) (key : Str) : Except S3Code Blob :=
  match st key with
  | none => Except.error S3Code.noSuchKey
  | some b => Except.ok b

/-- MinIO client `stat_object`: `S3Error NoSuchKey` when absent. -/
def s3StatObject (st : BlobStore) (key : Str) : Except S3Code Unit :=
  match st key with
  | none => Except.error S3Code.noSuchKey
  | some _ => Except.ok ()

/-- MinIO client `remove_object` (idempotent, no existence check). -/
def s3RemoveObject (st : BlobStore) (key : Str) : BlobStore :=
  fun k => if k = key then none else st k

/-- `MinioStorageBackend.get`: `get_object`, re-raising `NoSuchKey` as
`FileNotFoundError` and propagating any other `S3Error`. -/
def minioGet (st : BlobStore) (key : Str) : Except StorageErr Blob :=
  match s3GetObject st key with
  | Except.ok b => Except.ok b
  | Except.error S3Code.noSuchKey => Except.error StorageErr.notFound
  | Except.error S3Code.otherCode => Except.error StorageErr.other

/-- `MinioStorageBackend.delete`: `stat_object` first; `NoSuchKey` means
`False` (not an error), otherwise `remove_object` and `True`. -/
def minioDelete (st : BlobStore) (key : Str) :
    BlobStore × Except StorageErr Bool :=
  match s3StatObject st key with
  | Except.error S3Code.noSuchKey => (st, Except.ok false)
  | Except.error S3Code.otherCode => (st, Except.error StorageErr.other)
  | Except.ok () => (s3RemoveObject st key, Except.ok true)

/-! ## Storage key generation and path safety — `app/services/image_service.py`
(`sanitize_filename`, `generate_storage_key`) and
`LocalStorageBackend._get_path`. -/

/-- `str.replace(old, new)` at the single-character level. -/
def replaceCp (old new : Nat) (s : Str) : Str :=
  s.map fun c => if c = old then new else c

/-- `str.replace(old, "")` for a single character: removal. -/
def removeCp (old : Nat) (s : Str) : Str :=
  s.filter fun c => c ≠ old

/-- The part of `s` after its last `.` (`s.rsplit(".", 1)[-1]` when `"." in s`). -/
def afterLastDot (s : Str) : Str :=
  (s.reverse.takeWhile fun c => c ≠ 46).reverse

/-- The part of `s` before its last `.` (`s.rsplit(".", 1)[0]`). -/
def beforeLastDot (s : Str) : Str :=
  s.take (s.length - (afterLastDot s).length - 1)

/-- Codepoints of `"unnamed"`. -/
def unnamedStr : Str := [117, 110, 110, 97, 109, 101, 100]

/-- Codepoints of `"bin"`. -/
def binStr : Str := [98, 105, 110]

/-- `sanitize_filename`, character pass: replace `/` and `\` with `_` (95)
and strip NUL bytes. -/
def sanitizeCore (filename : Str) : Str :=
  removeCp 0 (replaceCp 92 95 (replaceCp 47 95 filename))

/-- `sanitize_filename`, length cap: over 255 characters, keep the first
250 of the stem plus the extension when there is one, else the first 255. -/
def sanitizeTruncate (s : Str) : Str :=
  if 255 < s.length then
    if 46 ∈ s then
      if afterLastDot s ≠ [] then
        (beforeLastDot s).take 250 ++ 46 :: afterLastDot s
      else (beforeLastDot s).take 255
    else s.take 255
  else s

/-- `ImageService.sanitize_filename`: replace `/` and `\` with `_`, strip
NUL bytes, cap the length at 255 (preserving the extension when there is
one), and fall back to `"unnamed"` for an empty result. -/
def sanitizeFilename (filename : Str) : Str :=
  if sanitizeTruncate (sanitizeCore filename) = [] then unnamedStr
  else sanitizeTruncate (sanitizeCore filename)

/-- `str.lower()` restricted to ASCII case-mapping (the only case Python's
lowering could matter to path safety: no character lowercases to `/`, `\`
or NUL, which is all the theorem uses). -/
def lowerCp (c : Nat) : Nat :=
  if 65 ≤ c ∧ c ≤ 90 then c + 32 else c

/-- `ImageService.generate_storage_key`, with the freshly drawn
`uuid.uuid4()` rendering passed in as `u`: extension after the last dot
(`"bin"` when the name has no dot), lowercased, appended to the uuid. -/
def generateStorageKey (u : Str) (filename : Str) : Str :=
  let ext := if 46 ∈ filename then afterLastDot filename else binStr
  u ++ 46 :: ext.map lowerCp

/-- The storage key the upload path derives from a client filename:
`generate_storage_key(sanitize_filename(filename))`. -/
def uploadStorageKey (u : Str) (filename : Str) : Str :=
  generateStorageKey u (sanitizeFilename filename)

/-- A canonical `uuid4` rendering: nonempty, hex digits and hyphens. -/
def isUuidCp (c : Nat) : Prop :=
  (48 ≤ c ∧ c ≤ 57) ∨ (97 ≤ c ∧ c ≤ 102) ∨ c = 45

/-- `LocalStorageBackend._get_path`: `self.base_path / key`.  For a
relative `key` (one not starting with `/`), `pathlib` joins under the
base; a key starting with `/` would replace the base entirely. -/
def getPath (base key : Str) : Str :=
  match key with
  | [] => base
  | c :: _ => if c = 47 then key else base ++ 47 :: key

/-! ## Cache-aside layer — `app/services/cache_service.py`

Values cached are dicts of JSON primitives (`_image_to_dict` emits only
strings, ints and `None`).  Redis stores the `json.dumps` text; the
stdlib `json` collaborator is modelled at its interface: serialized data
either parses back to the dict it came from (`CacheEntry.valid`) or fails
to parse (`CacheEntry.corrupt`, raising `json.JSONDecodeError` on read).
Each entry carries the TTL it was written with. -/

/-- A JSON primitive value, as they appear in `_image_to_dict`. -/
inductive JVal where
  | jstr (s : Str)
  | jint (n : Int)
  | jnull
deriving DecidableEq, Repr

/-- A metadata dict: association list from field name to value. -/
abbrev JDict := List (String × JVal)

/-- Serialized data sitting in Redis under a cache key: either valid JSON
for some dict, or bytes that fail to deserialize. -/
inductive CacheEntry where
  | valid (d : JDict)
  | corrupt
deriving DecidableEq, Repr

/-- The cache store: key to (entry, TTL it was written with). -/
abbrev CStore := String → Option (CacheEntry × Int)

/-- `CacheService._make_key` for the image namespace:
`f"{pfx}:image:{image_id}"`. -/
def mkImageKey (pfx imageId : String) : String :=
  pfx ++ ":image:" ++ imageId

/-- Python `ttl = ttl or self.default_ttl`: `None` and `0` are falsy and
fall back to the default; any other int (negative included) is kept. -/
def effectiveTtl (ttl : Option Int) (dflt : Int) : Int :=
  match ttl with
  | none => dflt
  | some t => if t = 0 then dflt else t

/-- `CacheService.set_image_metadata` (client connected): resolve the TTL,
then `SETEX key ttl json.dumps(metadata)`.  `SETEX` with a non-positive
expiry is rejected by Redis (`RedisError`), which the code catches and
turns into `False` with nothing written. -/
def setImageMetadata (pfx : String) (dflt : Int) (st : CStore)
    (imageId : String) (metadata : JDict) (ttl : Option Int) : CStore × Bool :=
  let key := mkImageKey pfx imageId
  let t := effectiveTtl ttl dflt
  if t ≤ 0 then (st, false)
  else (fun k => if k = key then some (CacheEntry.valid metadata, t) else st k, true)

/-- `CacheService.invalidate_image` (client connected): `DEL key`, `True`. -/
def invalidateImage (pfx : String) (st : CStore) (imageId : String) :
    CStore × Bool :=
  let key := mkImageKey pfx imageId
  (fun k => if k = key then none else st k, true)

/-- `CacheService.get_image_metadata` (client connected): `GET key`; absent
data is a miss (`None`); data that fails `json.loads` is logged, the entry
is deleted via `invalidate_image`, and the call returns `None`. -/
def getImageMetadata (pfx : String) (st : CStore) (imageId : String) :
    CStore × Option JDict :=
  match st (mkImageKey pfx imageId) with
  | none => (st, none)
  | some (CacheEntry.valid d, _) => (st, some d)
  | some (CacheEntry.corrupt, _) =>
      ((invalidateImage pfx st imageId).1, none)

/-! ## Timestamps — `datetime` collaborator used by
`ImageService._image_to_dict` / `_dict_to_image`

`Image.created_at` is an aware UTC `datetime` (`utc_now` =
`datetime.now(UTC)`, column `DateTime(timezone=True)`).  `isoformat()`
renders it as `YYYY-MM-DDTHH:MM:SS[.ffffff]+00:00` (the fractional part
omitted when the microsecond field is zero) and
`datetime.fromisoformat` parses that text back.  The parser below is the
`fromisoformat` collaborator restricted to the UTC offset this
application produces. -/

/-- An aware UTC `datetime`: the fields `isoformat` renders. -/
structure PyDateTime where
  year : Nat
  month : Nat
  day : Nat
  hour : Nat
  minute : Nat
  second : Nat
  microsecond : Nat
deriving DecidableEq, Repr

/-- Field bounds under which the textual rendering is faithful (every
value `datetime` accepts satisfies them). -/
def PyDateTime.wf (d : PyDateTime) : Prop :=
  d.year < 10000 ∧ d.month < 100 ∧ d.day < 100 ∧ d.hour < 100 ∧
  d.minute < 100 ∧ d.second < 100 ∧ d.microsecond < 1000000

instance (d : PyDateTime) : Decidable d.wf := by
  unfold PyDateTime.wf
  infer_instance

/-- Is codepoint `c` an ASCII digit. -/
def isDigitCp (c : Nat) : Bool :=
  decide (48 ≤ c ∧ c ≤ 57)

/-- `n` rendered as exactly `k` decimal digits, leading zeros included. -/
def padNum : Nat → Nat → Str
  | 0, _ => []
  | k + 1, n => (48 + n / 10 ^ k) :: padNum k (n % 10 ^ k)

/-- Read exactly `k` decimal digits, most significant first, onto `acc`. -/
def parseNum : Nat → Nat → Str → Option (Nat × Str)
  | 0, acc, cs => some (acc, cs)
  | _ + 1, _, [] => none
  | k + 1, acc, c :: cs =>
      if isDigitCp c then parseNum k (acc * 10 + (c - 48)) cs else none

/-- Consume one expected codepoint. -/
def expectCp (c : Nat) : Str → Option Str
  | d :: cs => if d = c then some cs else none
  | [] => none

/-- The fractional-seconds part: `.ffffff`, omitted when zero. -/
def microPart (us : Nat) : Str :=
  if us = 0 then [] else 46 :: padNum 6 us

/-- Codepoints of the UTC offset suffix `"+00:00"`. -/
def utcSuffix : Str := [43, 48, 48, 58, 48, 48]

/-- `datetime.isoformat()` on an aware UTC value:
`YYYY-MM-DDTHH:MM:SS[.ffffff]+00:00`. -/
def isoformat (d : PyDateTime) : Str :=
  padNum 4 d.year ++ 45 :: (padNum 2 d.month ++ 45 :: (padNum 2 d.day ++
    84 :: (padNum 2 d.hour ++ 58 :: (padNum 2 d.minute ++ 58 :: (padNum 2 d.second ++
      (microPart d.microsecond ++ utcSuffix))))))

/-- Parse the optional fractional-seconds part. -/
def parseMicro : Str → Option (Nat × Str)
  | 46 :: cs => parseNum 6 0 cs
  | cs => some (0, cs)

/-- The tail of the text after the time fields: the UTC offset and nothing
else. -/
def parseUtcSuffix : Str → Option Unit
  | [43, 48, 48, 58, 48, 48] => some ()
  | _ => none

/-- `datetime.fromisoformat` (restricted to the UTC renderings this
application produces; a parse failure is `fromisoformat` raising
`ValueError`). -/
def fromisoformat (cs : Str) : Option PyDateTime :=
  (parseNum 4 0 cs).bind fun yr =>
  (expectCp 45 yr.2).bind fun cs1 =>
  (parseNum 2 0 cs1).bind fun mo =>
  (expectCp 45 mo.2).bind fun cs2 =>
  (parseNum 2 0 cs2).bind fun da =>
  (expectCp 84 da.2).bind fun cs3 =>
  (parseNum 2 0 cs3).bind fun hr =>
  (expectCp 58 hr.2).bind fun cs4 =>
  (parseNum 2 0 cs4).bind fun mi =>
  (expectCp 58 mi.2).bind fun cs5 =>
  (parseNum 2 0 cs5).bind fun sec =>
  (parseMicro sec.2).bind fun us =>
  (parseUtcSuffix us.2).bind fun _ =>
  some { year := yr.1, month := mo.1, day := da.1, hour := hr.1,
         minute := mi.1, second := sec.1, microsecond := us.1 }

/-! ## Image metadata converters — `app/services/image_service.py`
(`_image_to_dict` / `_dict_to_image`) -/

/-- The `Image` model, with exactly the fields `_image_to_dict` snapshots. -/
structure Image where
  id : Str
  filename : Str
  storage_key : Str
  content_type : Str
  file_size : Int
  upload_ip : Str
  width : Option Int
  height : Option Int
  user_id : Option Str
  delete_token_hash : Option Str
  thumbnail_key : Option Str
  created_at : Option PyDateTime
deriving DecidableEq, Repr

/-- An optional string field as a JSON value (`None` → `null`). -/
def jOptStr : Option Str → JVal
  | some s => JVal.jstr s
  | none => JVal.jnull

/-- An optional int field as a JSON value (`None` → `null`). -/
def jOptInt : Option Int → JVal
  | some n => JVal.jint n
  | none => JVal.jnull

/-- `ImageService._image_to_dict`: snapshot the model fields, rendering
`created_at` with `isoformat()` (or `None`). -/
def imageToDict (img : Image) : JDict :=
  [("id", JVal.jstr img.id),
   ("filename", JVal.jstr img.filename),
   ("storage_key", JVal.jstr img.storage_key),
   ("content_type", JVal.jstr img.content_type),
   ("file_size", JVal.jint img.file_size),
   ("upload_ip", JVal.jstr img.upload_ip),
   ("width", jOptInt img.width),
   ("height", jOptInt img.height),
   ("user_id", jOptStr img.user_id),
   ("delete_token_hash", jOptStr img.delete_token_hash),
   ("thumbnail_key", jOptStr img.thumbnail_key),
   ("created_at", match img.created_at with
     | some d => JVal.jstr (isoformat d)
     | none => JVal.jnull)]

/-- Read a required string field of the dict. -/
def dGetStr (d : JDict) (k : String) : Option Str :=
  match d.lookup k with
  | some (JVal.jstr s) => some s
  | _ => none

/-- Read a required int field of the dict. -/
def dGetInt (d : JDict) (k : String) : Option Int :=
  match d.lookup k with
  | some (JVal.jint n) => some n
  | _ => none

/-- Read a nullable string field of the dict. -/
def dGetOptStr (d : JDict) (k : String) : Option (Option Str) :=
  match d.lookup k with
  | some (JVal.jstr s) => some (some s)
  | some JVal.jnull => some none
  | _ => none

/-- Read a nullable int field of the dict. -/
def dGetOptInt (d : JDict) (k : String) : Option (Option Int) :=
  match d.lookup k with
  | some (JVal.jint n) => some (some n)
  | some JVal.jnull => some none
  | _ => none

/-- `ImageService._dict_to_image`: parse `created_at` back from its ISO
string (`datetime.fromisoformat`; a `ValueError` from an unparsable string
is the `none` case), keep `None` as `None`, and rebuild the model
(`Image(**data)`). -/
def dictToImage (data : JDict) : Option Image :=
  (dGetStr data "id").bind fun id =>
  (dGetStr data "filename").bind fun filename =>
  (dGetStr data "storage_key").bind fun storage_key =>
  (dGetStr data "content_type").bind fun content_type =>
  (dGetInt data "file_size").bind fun file_size =>
  (dGetStr data "upload_ip").bind fun upload_ip =>
  (dGetOptInt data "width").bind fun width =>
  (dGetOptInt data "height").bind fun height =>
  (dGetOptStr data "user_id").bind fun user_id =>
  (dGetOptStr data "delete_token_hash").bind fun delete_token_hash =>
  (dGetOptStr data "thumbnail_key").bind fun thumbnail_key =>
  (match data.lookup "created_at" with
   | some (JVal.jstr s) => (fromisoformat s).map some
   | some JVal.jnull => some none
   | _ => none).bind fun created_at =>
  some { id := id, filename := filename, storage_key := storage_key,
         content_type := content_type, file_size := file_size,
         upload_ip := upload_ip, width := width, height := height,
         user_id := user_id, delete_token_hash := delete_token_hash,
         thumbnail_key := thumbnail_key, created_at := created_at }

/-- A cache-storable image: its timestamp, when present, is in range. -/
def Image.wf (img : Image) : Prop :=
  ∀ d : PyDateTime, img.created_at = some d → d.wf

/-- A sample UTC timestamp with a nonzero microsecond field. -/
def sampleDt : PyDateTime := ⟨2026, 10, 12, 7, 5, 59, 123456⟩

/-- A sample image carrying `sampleDt` and a mix of present/absent
nullable fields. -/
def sampleImage : Image :=
  ⟨[105], [102], [107], [99], 42, [49], some 640, none, none, some [104],
   none, some sampleDt⟩

/-! ## Storage service wrapper and the image-delete flow —
`app/services/storage_service.py` (`StorageService`) and
`app/services/image_service.py` (`ImageService.can_delete` / `delete`) -/

/-- `StorageService.save`: `return await self.backend.save(...)` — a plain
passthrough, so the backend's outcome (value or raised error) is the
service outcome. -/
def storageServiceSave (backendResult : Except StorageErr Str) :
    Except StorageErr Str := backendResult

/-- `StorageService.get`: passthrough of the backend call. -/
def storageServiceGet (backendResult : Except StorageErr Blob) :
    Except StorageErr Blob := backendResult

/-- `StorageService.delete`: passthrough of the backend call. -/
def storageServiceDelete (backendResult : Except StorageErr Bool) :
    Except StorageErr Bool := backendResult

/-- `StorageService.exists`: passthrough of the backend call. -/
def storageServiceExists (backendResult : Except StorageErr Bool) :
    Except StorageErr Bool := backendResult

/-- Python truthiness of an optional string: `None` and `""` are falsy. -/
def pyTruthy : Option Str → Bool
  | none => false
  | some s => !s.isEmpty

/-- The delete-token arm of `can_delete`: anonymous image with a stored
hash, a supplied token, and `AuthService.verify_delete_token` (the hashing
collaborator, passed in as `verify`) accepting it. -/
def tokenAuth (verify : Str → Str → Bool) (img : Image)
    (delete_token : Option Str) : Bool :=
  img.user_id.isNone &&
    (match img.delete_token_hash, delete_token with
     | some h, some t => !h.isEmpty && !t.isEmpty && verify t h
     | _, _ => false)

/-- `ImageService.can_delete`, branch for branch. -/
def canDelete (verify : Str → Str → Bool) (img : Image)
    (user_id delete_token : Option Str) : Bool × String :=
  if pyTruthy user_id && decide (img.user_id = user_id) then (true, "owner")
  else if tokenAuth verify img delete_token then (true, "token")
  else if pyTruthy user_id && pyTruthy img.user_id &&
      !(decide (img.user_id = user_id)) then (false, "not_owner")
  else if img.user_id.isNone && !(pyTruthy delete_token) then
    (false, "token_required")
  else if img.user_id.isNone && pyTruthy delete_token then
    (false, "invalid_token")
  else (false, "forbidden")

/-- Side effects the delete flow performed. -/
structure DeleteEffects where
  dbDeleted : Bool
  cacheInvalidated : Bool
  warnedOrphan : Bool
deriving DecidableEq, Repr

/-- `ImageService.delete`: fetch (cache bypassed), authorize, then
`storage.delete` inside `try/except Exception` — a failure is logged as an
orphan warning and the flow continues — then cache invalidation, DB delete
and commit, returning `(True, "deleted")`.  The `Except` result type
records whether any storage error propagates out of the flow: the code
catches them all, so the result is always `.ok`. -/
def imageDelete (verify : Str → Str → Bool) (dbImage : Option Image)
    (storageDel : Except StorageErr Bool) (user_id delete_token : Option Str) :
    Except StorageErr ((Bool × String) × DeleteEffects) :=
  match dbImage with
  | none => Except.ok ((false, "not_found"), ⟨false, false, false⟩)
  | some img =>
      let ar := canDelete verify img user_id delete_token
      if !ar.1 then Except.ok ((false, ar.2), ⟨false, false, false⟩)
      else
        let warned := match storageDel with
          | Except.error _ => true
          | Except.ok _ => false
        Except.ok ((true, "deleted"), ⟨true, true, warned⟩)

/-- An image owned by user `"u"` (codepoint 117). -/
def sampleOwnedImage : Image :=
  ⟨[105], [102], [107], [99], 42, [49], some 640, none, some [117], none,
   none, some sampleDt⟩

/-! ## MinIO startup — `MinioStorageBackend.create` / `_ensure_bucket_async`

`main.py` boots the MinIO backend through
`MinioStorageBackend.create(..., startup_timeout=settings.minio_startup_timeout)`
and `tests/unit/test_performance_fixes.py` pins its behavior, but the
`storage_service.py` under verification is an older revision holding only
the synchronous `__init__`/`_ensure_bucket`; the async factory itself is
not in the sources. -/

/-- How the boot-time interaction with the object store can end. -/
inductive BootFailure where
  /-- `asyncio.TimeoutError`: the bucket check outlasted `startup_timeout`. -/
  | timedOut
  /-- An `S3Error` re-raised (any code but `BucketAlreadyOwnedByYou`). -/
  | s3 (code : String)
deriving DecidableEq, Repr

/-- The object store's state and speed at boot: whether the bucket already
exists, how long the `bucket_exists` round trip takes (seconds; an
unreachable store is an unbounded duration), and the `S3Error` code
`make_bucket` raises, if any. -/
structure MinioBootEnv where
  bucketExists : Bool
  checkDuration : Nat
  makeBucketError : Option String
deriving DecidableEq, Repr

/-- A booted MinIO backend: how many `bucket_exists` round trips ran and
whether `make_bucket` was issued. -/
structure MinioBackendBoot where
  bucket : String
  bucketChecks : Nat
  madeBucket : Bool
deriving DecidableEq, Repr

/-- Modelled from the spec: `MinioStorageBackend._ensure_bucket_async(timeout)`
is missing from the sources (an older synchronous revision is present
instead); per the spec (§4.4, §6: "bucket-exists/create-bucket at startup
with a configurable timeout", failing fast at boot) and its callers/tests,
it runs one `bucket_exists` check under `asyncio.timeout(timeout)` —
raising `TimeoutError` when the store is too slow or unreachable — creates
the bucket when absent, and swallows only `BucketAlreadyOwnedByYou`. -/
def ensureBucketAsync (timeout : Nat) (bucket : String) (env : MinioBootEnv) :
    Except BootFailure MinioBackendBoot :=
  if timeout ≤ env.checkDuration then Except.error BootFailure.timedOut
  else if env.bucketExists then Except.ok ⟨bucket, 1, false⟩
  else match env.makeBucketError with
    | none => Except.ok ⟨bucket, 1, true⟩
    | some code =>
        if code = "BucketAlreadyOwnedByYou" then Except.ok ⟨bucket, 1, true⟩
        else Except.error (BootFailure.s3 code)

/-- Modelled from the spec: `MinioStorageBackend.create` (async factory
used by `main.py`'s lifespan, absent from the sources) constructs the
client and runs the bucket check exactly once, bounded by
`startup_timeout`. -/
def minioCreate (startupTimeout : Nat) (bucket : String) (env : MinioBootEnv) :
    Except BootFailure MinioBackendBoot :=
  ensureBucketAsync startupTimeout bucket env

/-! ## Theorems -/

theorem semInv_init (limit : Nat) : SemInv limit (UploadSemaphore.init limit) := by
  refine ⟨rfl, le_refl 0, ?_⟩
  simp [UploadSemaphore.init]

theorem semInv_execOps (limit : Nat) :
    ∀ (ops : List SemOp) (s : UploadSemaphore), SemInv limit s →
      matchedRun s ops = true → SemInv limit (execOps s ops) := by
  intro ops
  induction ops with
  | nil => intro s h _; exact h
  | cons op ops ih =>
    intro s h hm
    obtain ⟨hl, h0, hsum⟩ := h
    cases op with
    | acquire =>
      simp only [matchedRun] at hm
      simp only [execOps]
      refine ih _ ?_ hm
      unfold UploadSemaphore.acquireWithTimeout
      by_cases hpos : 0 < s.semValue
      · simp only [hpos, if_true]
        have hc : ((s.semValue - 1 : Nat) : Int) = (s.semValue : Int) - 1 := by
          omega
        exact ⟨hl, by dsimp only; omega, by dsimp only; rw [hc]; omega⟩
      · simp only [hpos, if_false]
        exact ⟨hl, h0, hsum⟩
    | release =>
      simp only [matchedRun, Bool.and_eq_true, decide_eq_true_eq] at hm
      obtain ⟨hact, hm⟩ := hm
      simp only [execOps]
      refine ih _ ?_ hm
      unfold UploadSemaphore.release
      refine ⟨hl, ?_, ?_⟩
      · simp only
        omega
      · simp only
        have : max 0 (s.activeCount - 1) = s.activeCount - 1 := by omega
        rw [this]
        push_cast
        omega

/-- C1 counterexample trace: capacity 1, one unmatched `release`, then two
`acquire_with_timeout` calls.  The release bumps the wrapped semaphore to 2
(two grantable slots on a capacity-1 pool), after which both acquires
succeed and `_active_count` reaches 2 > capacity. -/
theorem uploadSemaphore_unmatched_release_violates_cap :
    (UploadSemaphore.release (UploadSemaphore.init 1)).semValue = 2 ∧
    (execOps (UploadSemaphore.init 1)
        [SemOp.release, SemOp.acquire, SemOp.acquire]).activeCount = 2 ∧
    ¬ ((execOps (UploadSemaphore.init 1)
        [SemOp.release, SemOp.acquire, SemOp.acquire]).activeCount ≤ 1) := by
  refine ⟨rfl, rfl, ?_⟩
  decide

/-- C1 (amended): `release` never drives `_active_count` negative (it is
floored at zero), and along every matched trace — one in which each
`release` is issued while `_active_count` is positive — the invariant
`0 ≤ active_count ≤ capacity` holds; but an unmatched `release` is not a
no-op on the wrapped semaphore (see the counterexample). -/
theorem uploadSemaphore_matched_invariant (limit : Nat) (ops : List SemOp)
    (hm : matchedRun (UploadSemaphore.init limit) ops = true) :
    (∀ s : UploadSemaphore, 0 ≤ (s.release).activeCount) ∧
    0 ≤ (execOps (UploadSemaphore.init limit) ops).activeCount ∧
    (execOps (UploadSemaphore.init limit) ops).activeCount ≤ limit := by
  have h := semInv_execOps limit ops _ (semInv_init limit) hm
  obtain ⟨-, h0, hsum⟩ := h
  refine ⟨?_, h0, ?_⟩
  · intro s
    simp only [UploadSemaphore.release]
    omega
  · have : (0 : Int) ≤ ((execOps (UploadSemaphore.init limit) ops).semValue : Int) := by
      positivity
    omega

/-- Witness for the amended C1 theorem at a concrete matched trace. -/
theorem uploadSemaphore_matched_invariant_witness :
    matchedRun (UploadSemaphore.init 2)
        [SemOp.acquire, SemOp.acquire, SemOp.release, SemOp.acquire] = true ∧
    0 ≤ (execOps (UploadSemaphore.init 2)
        [SemOp.acquire, SemOp.acquire, SemOp.release, SemOp.acquire]).activeCount ∧
    (execOps (UploadSemaphore.init 2)
        [SemOp.acquire, SemOp.acquire, SemOp.release, SemOp.acquire]).activeCount ≤ 2 := by
  have h := uploadSemaphore_matched_invariant 2
      [SemOp.acquire, SemOp.acquire, SemOp.release, SemOp.acquire] (by decide)
  exact ⟨by decide, h.2.1, h.2.2⟩

theorem rlRunAux_live (limit window : Nat) :
    ∀ (ds : List Nat) (c t : Nat) (r : RateLimitResult), ds.sum < t →
      rlRunAux limit window (some (c, t)) r ds =
        (some (c + ds.length, t - ds.sum),
         if ds.length = 0 then r
         else rlDecision limit window (c + ds.length) ((t - ds.sum : Nat) : Int)) := by
  intro ds
  induction ds with
  | nil =>
    intro c t r _
    simp [rlRunAux]
  | cons d ds ih =>
    intro c t r hsum
    simp only [List.sum_cons] at hsum
    have hd : d < t := by omega
    simp only [rlRunAux, rlAge, hd, if_true, rlCheck, rlPipeline]
    rw [ih (c + 1) (t - d) _ (by omega)]
    have h1 : c + 1 + ds.length = c + (d :: ds).length := by
      simp only [List.length_cons]
      omega
    have h2 : t - d - ds.sum = t - (d :: ds).sum := by
      simp only [List.sum_cons]
      omega
    rw [h1, h2]
    by_cases hnil : ds.length = 0
    · rcases List.eq_nil_of_length_eq_zero hnil with rfl
      simp only [List.length_cons, List.length_nil, List.sum_cons, List.sum_nil,
        add_zero, Nat.add_zero]
      simp only [hnil, if_true]
      have : c + 1 = c + [d].length := by simp
      simp [List.length_cons]
    · simp only [hnil, if_false, List.length_cons]
      have : ¬ (ds.length + 1 = 0) := by omega
      simp [this]

/-- Closed form for a trace whose delays keep the key inside one window:
after the `(1 + ds.length)`-th call the count is `1 + ds.length` and the
TTL has run down by `ds.sum`; the final result is the decision at that
count and TTL. -/
theorem rlTrace_closed (limit window : Nat) (ds : List Nat)
    (hsum : ds.sum < window) :
    rlTrace limit window ds =
      (some (1 + ds.length, window - ds.sum),
       rlDecision limit window (1 + ds.length) ((window - ds.sum : Nat) : Int)) := by
  unfold rlTrace
  simp only [rlCheck, rlPipeline]
  rw [rlRunAux_live limit window ds 1 window _ hsum]
  by_cases hnil : ds.length = 0
  · rcases List.eq_nil_of_length_eq_zero hnil with rfl
    simp [rlDecision]
  · simp [hnil]

/-- C4: with limit `L ≥ 1` and window `W ≥ 1`, the `L`-th `check` within one
window (inter-call delays `ds1`, `ds1.sum < W`) is allowed with count `L`;
the `(L+1)`-th `check` within one window (delays `ds2`, `ds2.sum < W`) is
denied with `remaining = 0` and `retry_after = some t` for some
`0 < t ≤ W`; and whenever the count exceeds the limit but the TTL read is
non-positive, `retry_after` falls back to the full window `W`. -/
theorem rateLimiter_window_boundary (L W : Nat) (hL : 0 < L) (_hW : 0 < W)
    (ds1 ds2 : List Nat) (h1 : ds1.length = L - 1) (hs1 : ds1.sum < W)
    (h2 : ds2.length = L) (hs2 : ds2.sum < W) :
    ((rlTrace L W ds1).2.allowed = true ∧ (rlTrace L W ds1).2.current_count = L) ∧
    ((rlTrace L W ds2).2.allowed = false ∧ (rlTrace L W ds2).2.remaining = 0 ∧
      (rlTrace L W ds2).2.retry_after = some ((W - ds2.sum : Nat) : Int) ∧
      0 < ((W - ds2.sum : Nat) : Int) ∧ ((W - ds2.sum : Nat) : Int) ≤ (W : Int)) ∧
    (∀ (c : Nat) (ttl : Int), L < c → ttl ≤ 0 →
      (rlDecision L W c ttl).retry_after = some (W : Int)) := by
  refine ⟨?_, ?_, ?_⟩
  · rw [rlTrace_closed L W ds1 hs1]
    have hcount : 1 + ds1.length = L := by omega
    rw [hcount]
    constructor
    · simp [rlDecision]
    · simp [rlDecision]
  · rw [rlTrace_closed L W ds2 hs2]
    have hcount : 1 + ds2.length = L + 1 := by omega
    rw [hcount]
    have hlt : L < L + 1 := by omega
    refine ⟨?_, ?_, ?_, ?_, ?_⟩
    · simp [rlDecision, hlt]
    · simp [rlDecision, hlt]
    · have hpos : (0 : Int) < ((W - ds2.sum : Nat) : Int) := by
        have : 0 < W - ds2.sum := by omega
        exact_mod_cast this
      simp [rlDecision, hlt, hpos]
    · have : 0 < W - ds2.sum := by omega
      exact_mod_cast this
    · have : W - ds2.sum ≤ W := by omega
      exact_mod_cast this
  · intro c ttl hc httl
    have hnpos : ¬ (0 < ttl) := by omega
    simp [rlDecision, hc, hnpos]

/-- Witness for C4 at `L = 2`, `W = 60`, delays `[0]` and `[0, 0]`. -/
theorem rateLimiter_window_boundary_witness :
    (0 < 2 ∧ 0 < 60 ∧ ([0] : List Nat).length = 2 - 1 ∧ ([0] : List Nat).sum < 60 ∧
      ([0, 0] : List Nat).length = 2 ∧ ([0, 0] : List Nat).sum < 60) ∧
    ((rlTrace 2 60 [0]).2.allowed = true ∧ (rlTrace 2 60 [0]).2.current_count = 2) ∧
    ((rlTrace 2 60 [0, 0]).2.allowed = false ∧
      (rlTrace 2 60 [0, 0]).2.remaining = 0 ∧
      (rlTrace 2 60 [0, 0]).2.retry_after = some 60) := by
  have h := rateLimiter_window_boundary 2 60 (by decide) (by decide)
      [0] [0, 0] (by decide) (by decide) (by decide) (by decide)
  refine ⟨⟨by decide, by decide, by decide, by decide, by decide, by decide⟩,
    h.1, h.2.1.1, h.2.1.2.1, ?_⟩
  have := h.2.1.2.2.1
  rw [this]
  decide

/-- C5: `check` fails open — if the limiter is disabled, or no Redis client
is configured, or the pipeline raises a `RedisError`, the decision is
`allowed = true`, `current_count = 0`, `remaining = limit` (and `check`
returns this result rather than raising: the model is a total function). -/
theorem rateLimiter_fails_open (enabled hasClient : Bool) (limit window : Nat)
    (outcome : RedisOutcome)
    (h : enabled = false ∨ hasClient = false ∨ outcome = RedisOutcome.err) :
    ((rlCheckFull enabled hasClient limit window outcome).2.allowed = true ∧
     (rlCheckFull enabled hasClient limit window outcome).2.current_count = 0 ∧
     (rlCheckFull enabled hasClient limit window outcome).2.remaining = (limit : Int)) := by
  rcases h with h | h | h
  · subst h
    simp [rlCheckFull, rlFailOpen]
  · subst h
    cases enabled <;> simp [rlCheckFull, rlFailOpen]
  · subst h
    cases enabled <;> cases hasClient <;> simp [rlCheckFull, rlFailOpen]

/-- Witness for C5: a disabled limiter allows the request with zero count. -/
theorem rateLimiter_fails_open_witness :
    (false = false ∨ true = false ∨ RedisOutcome.err = RedisOutcome.err) ∧
    ((rlCheckFull false true 10 60 (RedisOutcome.ok none)).2.allowed = true ∧
     (rlCheckFull false true 10 60 (RedisOutcome.ok none)).2.current_count = 0 ∧
     (rlCheckFull false true 10 60 (RedisOutcome.ok none)).2.remaining = 10) :=
  ⟨Or.inl rfl,
   rateLimiter_fails_open false true 10 60 (RedisOutcome.ok none) (Or.inl rfl)⟩

/-- C7: on a key absent from the store, for both backends, `get` raises the
distinct NotFound condition while `delete` returns `False` without raising
(and leaves the store unchanged). -/
theorem storage_missing_key_taxonomy (st : BlobStore) (key : Str)
    (habs : st key = none) :
    localGet st key = Except.error StorageErr.notFound ∧
    localDelete st key = (st, Except.ok false) ∧
    minioGet st key = Except.error StorageErr.notFound ∧
    minioDelete st key = (st, Except.ok false) := by
  refine ⟨?_, ?_, ?_, ?_⟩
  · simp [localGet, habs]
  · simp [localDelete, habs]
  · simp [minioGet, s3GetObject, habs]
  · simp [minioDelete, s3StatObject, habs]

/-- Witness for C7 on the empty store and the key `"k"` (codepoint 107). -/
theorem storage_missing_key_taxonomy_witness :
    ((fun _ => none : BlobStore) [107] = none) ∧
    (localGet (fun _ => none) [107] = Except.error StorageErr.notFound ∧
     minioGet (fun _ => none) [107] = Except.error StorageErr.notFound) := by
  have h := storage_missing_key_taxonomy (fun _ => none) [107] rfl
  exact ⟨rfl, h.1, h.2.2.1⟩

theorem mem_afterLastDot_of_mem {s : Str} {c : Nat}
    (h : c ∈ afterLastDot s) : c ∈ s := by
  unfold afterLastDot at h
  rw [List.mem_reverse] at h
  have := List.takeWhile_sublist (l := s.reverse) (p := fun c => c ≠ 46)
  have hmem := this.mem h
  rwa [List.mem_reverse] at hmem

theorem afterLastDot_no_dot (s : Str) : 46 ∉ afterLastDot s := by
  intro h
  unfold afterLastDot at h
  rw [List.mem_reverse] at h
  have := List.mem_takeWhile_imp h
  simp at this

theorem mem_beforeLastDot_of_mem {s : Str} {c : Nat}
    (h : c ∈ beforeLastDot s) : c ∈ s := by
  unfold beforeLastDot at h
  exact List.mem_of_mem_take h

/-- A character of the truncated string is a character of the input or the
reinserted `.`. -/
theorem mem_sanitizeTruncate {s : Str} {c : Nat}
    (h : c ∈ sanitizeTruncate s) : c ∈ s ∨ c = 46 := by
  unfold sanitizeTruncate at h
  split_ifs at h with h1 h2 h3
  · rw [List.mem_append] at h
    rcases h with h | h
    · exact Or.inl (mem_beforeLastDot_of_mem (List.mem_of_mem_take h))
    · rw [List.mem_cons] at h
      rcases h with h | h
      · exact Or.inr h
      · exact Or.inl (mem_afterLastDot_of_mem h)
  · exact Or.inl (mem_beforeLastDot_of_mem (List.mem_of_mem_take h))
  · exact Or.inl (List.mem_of_mem_take h)
  · exact Or.inl h

/-- The character pass never lets `/`, `\` or NUL through. -/
theorem sanitizeCore_clean (filename : Str) :
    ∀ c ∈ sanitizeCore filename, c ≠ 47 ∧ c ≠ 92 ∧ c ≠ 0 := by
  intro d hd
  unfold sanitizeCore removeCp at hd
  have hd0 : d ≠ 0 := by
    have := List.of_mem_filter hd
    simpa using this
  have hd' : d ∈ replaceCp 92 95 (replaceCp 47 95 filename) :=
    List.mem_of_mem_filter hd
  unfold replaceCp at hd'
  rw [List.mem_map] at hd'
  obtain ⟨e, he, hde⟩ := hd'
  rw [List.mem_map] at he
  obtain ⟨f, _, hef⟩ := he
  refine ⟨?_, ?_, hd0⟩
  · by_cases h1 : e = 92
    · rw [if_pos h1] at hde
      omega
    · rw [if_neg h1] at hde
      by_cases h2 : f = 47
      · rw [if_pos h2] at hef
        omega
      · rw [if_neg h2] at hef
        omega
  · by_cases h1 : e = 92
    · rw [if_pos h1] at hde
      omega
    · rw [if_neg h1] at hde
      omega

/-- Every character of a sanitized filename is clean: never `/`, `\` or NUL
(the `"unnamed"` fallback included). -/
theorem sanitizeFilename_clean (filename : Str) :
    ∀ c ∈ sanitizeFilename filename, c ≠ 47 ∧ c ≠ 92 ∧ c ≠ 0 := by
  intro c hc
  unfold sanitizeFilename at hc
  split_ifs at hc with h1
  · have hall : ∀ d ∈ unnamedStr, d ≠ 47 ∧ d ≠ 92 ∧ d ≠ 0 := by decide
    exact hall c hc
  · rcases mem_sanitizeTruncate hc with hmem | h46
    · exact sanitizeCore_clean filename c hmem
    · omega

/-- C9: for every input filename and every canonical uuid rendering, the
storage key produced by the upload path is `<uuid>.<lowercased extension>`,
contains no `/`, `\` or NUL, is none of `""`, `"."`, `".."`, and so
`LocalStorageBackend._get_path` resolves it to `base ++ "/" ++ key`,
strictly below the configured base directory. -/
theorem uploadStorageKey_safe (u filename : Str) (hu : u ≠ [])
    (huc : ∀ c ∈ u, isUuidCp c) :
    (∃ ext : Str, uploadStorageKey u filename = u ++ 46 :: ext ∧ 46 ∉ ext) ∧
    (∀ c ∈ uploadStorageKey u filename, c ≠ 47 ∧ c ≠ 92 ∧ c ≠ 0) ∧
    uploadStorageKey u filename ≠ [] ∧
    uploadStorageKey u filename ≠ [46] ∧
    uploadStorageKey u filename ≠ [46, 46] ∧
    (∀ base : Str, getPath base (uploadStorageKey u filename) =
      base ++ 47 :: uploadStorageKey u filename) := by
  have huc' : ∀ c ∈ u, c ≠ 47 ∧ c ≠ 92 ∧ c ≠ 0 ∧ c ≠ 46 := by
    intro c hc
    have := huc c hc
    unfold isUuidCp at this
    omega
  unfold uploadStorageKey generateStorageKey
  set sf := sanitizeFilename filename with hsf
  set ext0 := if 46 ∈ sf then afterLastDot sf else binStr with hext0
  have hextmem : ∀ c ∈ ext0, c ≠ 47 ∧ c ≠ 92 ∧ c ≠ 0 := by
    intro c hc
    rw [hext0] at hc
    by_cases hdot : 46 ∈ sf
    · rw [if_pos hdot] at hc
      exact sanitizeFilename_clean filename c (mem_afterLastDot_of_mem hc)
    · rw [if_neg hdot] at hc
      have hall : ∀ d ∈ binStr, d ≠ 47 ∧ d ≠ 92 ∧ d ≠ 0 := by decide
      exact hall c hc
  have hextdot : 46 ∉ ext0 := by
    rw [hext0]
    by_cases hdot : 46 ∈ sf
    · rw [if_pos hdot]
      exact afterLastDot_no_dot sf
    · rw [if_neg hdot]
      decide
  have hlowclean : ∀ c ∈ ext0.map lowerCp, c ≠ 47 ∧ c ≠ 92 ∧ c ≠ 0 := by
    intro c hc
    rw [List.mem_map] at hc
    obtain ⟨d, hd, hdc⟩ := hc
    have := hextmem d hd
    unfold lowerCp at hdc
    by_cases hcase : 65 ≤ d ∧ d ≤ 90
    · rw [if_pos hcase] at hdc
      omega
    · rw [if_neg hcase] at hdc
      omega
  have hlowdot : 46 ∉ ext0.map lowerCp := by
    intro h
    rw [List.mem_map] at h
    obtain ⟨d, hd, hdc⟩ := h
    have hmem := hextmem d hd
    unfold lowerCp at hdc
    by_cases hcase : 65 ≤ d ∧ d ≤ 90
    · rw [if_pos hcase] at hdc
      omega
    · rw [if_neg hcase] at hdc
      exact hextdot (hdc ▸ hd)
  have hkeyclean : ∀ c ∈ u ++ 46 :: ext0.map lowerCp, c ≠ 47 ∧ c ≠ 92 ∧ c ≠ 0 := by
    intro c hc
    rw [List.mem_append] at hc
    rcases hc with hc | hc
    · have := huc' c hc
      exact ⟨this.1, this.2.1, this.2.2.1⟩
    · rw [List.mem_cons] at hc
      rcases hc with hc | hc
      · omega
      · exact hlowclean c hc
  obtain ⟨u0, urest, hu0⟩ : ∃ u0 urest, u = u0 :: urest := by
    cases u with
    | nil => exact absurd rfl hu
    | cons a l => exact ⟨a, l, rfl⟩
  have hu0mem := huc' u0 (by rw [hu0]; exact List.mem_cons_self u0 urest)
  refine ⟨⟨ext0.map lowerCp, rfl, hlowdot⟩, hkeyclean, ?_, ?_, ?_, ?_⟩
  · rw [hu0]
    simp
  · rw [hu0]
    intro h
    rw [List.cons_append] at h
    injection h with h1 _
    exact hu0mem.2.2.2 h1
  · rw [hu0]
    intro h
    rw [List.cons_append] at h
    injection h with h1 _
    exact hu0mem.2.2.2 h1
  · intro base
    rw [hu0, List.cons_append]
    simp only [getPath]
    rw [if_neg hu0mem.1]

/-- Witness for C9 at uuid rendering `"ab-1"` and filename `"../e\x00vil/x.PNG"`. -/
theorem uploadStorageKey_safe_witness :
    (([97, 98, 45, 49] : Str) ≠ [] ∧
      ∀ c ∈ ([97, 98, 45, 49] : Str), isUuidCp c) ∧
    uploadStorageKey [97, 98, 45, 49] [46, 46, 47, 101, 0, 118, 105, 108, 47, 120, 46, 80, 78, 71] =
      [97, 98, 45, 49, 46, 112, 110, 103] ∧
    (∀ c ∈ uploadStorageKey [97, 98, 45, 49]
        [46, 46, 47, 101, 0, 118, 105, 108, 47, 120, 46, 80, 78, 71],
      c ≠ 47 ∧ c ≠ 92 ∧ c ≠ 0) ∧
    getPath [98, 97, 115, 101]
        (uploadStorageKey [97, 98, 45, 49]
          [46, 46, 47, 101, 0, 118, 105, 108, 47, 120, 46, 80, 78, 71]) =
      [98, 97, 115, 101] ++ 47 :: uploadStorageKey [97, 98, 45, 49]
          [46, 46, 47, 101, 0, 118, 105, 108, 47, 120, 46, 80, 78, 71] := by
  have h := uploadStorageKey_safe [97, 98, 45, 49]
      [46, 46, 47, 101, 0, 118, 105, 108, 47, 120, 46, 80, 78, 71]
      (by decide) (by unfold isUuidCp; decide)
  exact ⟨⟨by decide, by unfold isUuidCp; decide⟩, by decide, h.2.1,
    h.2.2.2.2.2 [98, 97, 115, 101]⟩

/-- C8: a cache key holding data that fails to deserialize is treated as a
miss — `get_image_metadata` returns `None`, never an error — and the
corrupt entry is deleted (other keys untouched). -/
theorem cache_corrupt_entry_is_miss_and_deleted (pfx : String) (st : CStore)
    (imageId : String) (ttl : Int)
    (hcorrupt : st (mkImageKey pfx imageId) = some (CacheEntry.corrupt, ttl)) :
    (getImageMetadata pfx st imageId).2 = none ∧
    (getImageMetadata pfx st imageId).1 (mkImageKey pfx imageId) = none ∧
    (∀ k : String, k ≠ mkImageKey pfx imageId →
      (getImageMetadata pfx st imageId).1 k = st k) := by
  unfold getImageMetadata
  rw [hcorrupt]
  refine ⟨rfl, ?_, ?_⟩
  · simp [invalidateImage]
  · intro k hk
    simp [invalidateImage, hk]

/-- Witness for C8: one corrupt entry under the configured pfx. -/
theorem cache_corrupt_entry_is_miss_and_deleted_witness :
    ((fun k => if k = mkImageKey "chitram" "img1" then
        some (CacheEntry.corrupt, (3600 : Int)) else none) : CStore)
      (mkImageKey "chitram" "img1") = some (CacheEntry.corrupt, 3600) ∧
    (getImageMetadata "chitram"
      (fun k => if k = mkImageKey "chitram" "img1" then
        some (CacheEntry.corrupt, (3600 : Int)) else none) "img1").2 = none ∧
    (getImageMetadata "chitram"
      (fun k => if k = mkImageKey "chitram" "img1" then
        some (CacheEntry.corrupt, (3600 : Int)) else none) "img1").1
      (mkImageKey "chitram" "img1") = none := by
  have h := cache_corrupt_entry_is_miss_and_deleted "chitram"
      (fun k => if k = mkImageKey "chitram" "img1" then
        some (CacheEntry.corrupt, (3600 : Int)) else none) "img1" 3600 (by simp)
  exact ⟨by simp, h.1, h.2.1⟩

/-- C10: `set_image_metadata` writes the entry with the configured default
TTL when the requested TTL is omitted (`None`) or `0` — a caller can never
store an entry with a zero TTL — and with expiry exactly `t` for every
positive requested `t` (default TTL positive, as configured). -/
theorem cache_set_ttl_zero_is_default (pfx : String) (dflt : Int)
    (st : CStore) (imageId : String) (metadata : JDict)
    (hdflt : 0 < dflt) :
    ((setImageMetadata pfx dflt st imageId metadata none).1
        (mkImageKey pfx imageId) = some (CacheEntry.valid metadata, dflt)) ∧
    ((setImageMetadata pfx dflt st imageId metadata (some 0)).1
        (mkImageKey pfx imageId) = some (CacheEntry.valid metadata, dflt)) ∧
    (∀ t : Int, 0 < t →
      (setImageMetadata pfx dflt st imageId metadata (some t)).1
        (mkImageKey pfx imageId) = some (CacheEntry.valid metadata, t)) := by
  refine ⟨?_, ?_, ?_⟩
  · have he : effectiveTtl none dflt = dflt := rfl
    unfold setImageMetadata
    rw [he, if_neg (by omega)]
    simp
  · have he : effectiveTtl (some 0) dflt = dflt := by
      show (if (0 : Int) = 0 then dflt else 0) = dflt
      rw [if_pos rfl]
    unfold setImageMetadata
    rw [he, if_neg (by omega)]
    simp
  · intro t ht
    have he : effectiveTtl (some t) dflt = t := by
      show (if t = 0 then dflt else t) = t
      rw [if_neg (by omega)]
    unfold setImageMetadata
    rw [he, if_neg (by omega)]
    simp

/-- Witness for C10 at the configured default TTL 3600 and requested TTL 60. -/
theorem cache_set_ttl_zero_is_default_witness :
    (0 : Int) < 3600 ∧ (0 : Int) < 60 ∧
    ((setImageMetadata "chitram" 3600 (fun _ => none) "img1" [] none).1
        (mkImageKey "chitram" "img1") = some (CacheEntry.valid [], 3600)) ∧
    ((setImageMetadata "chitram" 3600 (fun _ => none) "img1" [] (some 0)).1
        (mkImageKey "chitram" "img1") = some (CacheEntry.valid [], 3600)) ∧
    ((setImageMetadata "chitram" 3600 (fun _ => none) "img1" [] (some 60)).1
        (mkImageKey "chitram" "img1") = some (CacheEntry.valid [], 60)) := by
  have h := cache_set_ttl_zero_is_default "chitram" 3600 (fun _ => none) "img1" []
      (by omega)
  exact ⟨by omega, by omega, h.1, h.2.1, h.2.2 60 (by omega)⟩

theorem parseNum_padNum :
    ∀ (k acc n : Nat) (rest : Str), n < 10 ^ k →
      parseNum k acc (padNum k n ++ rest) = some (acc * 10 ^ k + n, rest) := by
  intro k
  induction k with
  | zero =>
    intro acc n rest hn
    interval_cases n
    simp [padNum, parseNum]
  | succ k ih =>
    intro acc n rest hn
    have hpow : 0 < 10 ^ k := Nat.pos_pow_of_pos k (by omega)
    have hdiv : n / 10 ^ k < 10 := by
      apply Nat.div_lt_of_lt_mul
      calc n < 10 ^ (k + 1) := hn
        _ = 10 ^ k * 10 := by ring
    have hdigit : isDigitCp (48 + n / 10 ^ k) = true := by
      unfold isDigitCp
      simp only [decide_eq_true_eq]
      have h9 : n / 10 ^ k ≤ 9 := Nat.lt_succ_iff.mp hdiv
      exact ⟨Nat.le_add_right 48 _, by
        calc 48 + n / 10 ^ k ≤ 48 + 9 := Nat.add_le_add_left h9 48
          _ ≤ 57 := by norm_num⟩
    simp only [padNum, List.cons_append, parseNum, hdigit, if_true]
    have hval : 48 + n / 10 ^ k - 48 = n / 10 ^ k := Nat.add_sub_cancel_left 48 _
    rw [hval]
    show parseNum k (acc * 10 + n / 10 ^ k) (padNum k (n % 10 ^ k) ++ rest) =
      some (acc * 10 ^ (k + 1) + n, rest)
    rw [ih _ _ rest (Nat.mod_lt n hpow)]
    congr 2
    have hmod := Nat.div_add_mod n (10 ^ k)
    calc (acc * 10 + n / 10 ^ k) * 10 ^ k + n % 10 ^ k
        = acc * (10 ^ k * 10) + (10 ^ k * (n / 10 ^ k) + n % 10 ^ k) := by ring
      _ = acc * 10 ^ (k + 1) + n := by rw [hmod]; ring

theorem expectCp_cons (c : Nat) (rest : Str) :
    expectCp c (c :: rest) = some rest := by
  simp [expectCp]

/-- `fromisoformat` inverts `isoformat` on every well-formed UTC value. -/
theorem fromisoformat_isoformat (d : PyDateTime) (h : d.wf) :
    fromisoformat (isoformat d) = some d := by
  obtain ⟨hy, hmo, hda, hh, hmi, hs, hus⟩ := h
  unfold isoformat fromisoformat
  rw [parseNum_padNum 4 0 d.year _ hy]
  simp only [Option.bind_eq_bind, Option.some_bind, Nat.zero_mul, Nat.zero_add]
  rw [expectCp_cons]
  simp only [Option.some_bind]
  rw [parseNum_padNum 2 0 d.month _ hmo]
  simp only [Option.some_bind, Nat.zero_mul, Nat.zero_add]
  rw [expectCp_cons]
  simp only [Option.some_bind]
  rw [parseNum_padNum 2 0 d.day _ hda]
  simp only [Option.some_bind, Nat.zero_mul, Nat.zero_add]
  rw [expectCp_cons]
  simp only [Option.some_bind]
  rw [parseNum_padNum 2 0 d.hour _ hh]
  simp only [Option.some_bind, Nat.zero_mul, Nat.zero_add]
  rw [expectCp_cons]
  simp only [Option.some_bind]
  rw [parseNum_padNum 2 0 d.minute _ hmi]
  simp only [Option.some_bind, Nat.zero_mul, Nat.zero_add]
  rw [expectCp_cons]
  simp only [Option.some_bind]
  rw [parseNum_padNum 2 0 d.second _ hs]
  simp only [Option.some_bind, Nat.zero_mul, Nat.zero_add]
  by_cases hz : d.microsecond = 0
  · have hmp : microPart d.microsecond = [] := by
      rw [microPart, if_pos hz]
    rw [hmp, List.nil_append]
    have hmicro : parseMicro utcSuffix = some (0, utcSuffix) := rfl
    rw [hmicro]
    simp only [Option.some_bind]
    have hsuf : parseUtcSuffix utcSuffix = some () := rfl
    rw [hsuf]
    simp only [Option.some_bind]
    rw [← hz]
  · have hmp : microPart d.microsecond = 46 :: padNum 6 d.microsecond := by
      rw [microPart, if_neg hz]
    rw [hmp, List.cons_append]
    have hmicro : parseMicro (46 :: (padNum 6 d.microsecond ++ utcSuffix)) =
        parseNum 6 0 (padNum 6 d.microsecond ++ utcSuffix) := rfl
    rw [hmicro, parseNum_padNum 6 0 d.microsecond _ hus]
    simp only [Option.some_bind, Nat.zero_mul, Nat.zero_add]
    have hsuf : parseUtcSuffix utcSuffix = some () := rfl
    rw [hsuf]
    simp only [Option.some_bind]

theorem dictToImage_imageToDict (img : Image) (himg : img.wf) :
    dictToImage (imageToDict img) = some img := by
  obtain ⟨iid, ifn, isk, ict, ifs, iip, iw, iht, iuid, idth, itk, ica⟩ := img
  cases ica with
  | none =>
    cases iw <;> cases iht <;> cases iuid <;> cases idth <;> cases itk <;> rfl
  | some dt =>
    have hdt : dt.wf := himg dt rfl
    have hiso := fromisoformat_isoformat dt hdt
    set md := imageToDict
      ⟨iid, ifn, isk, ict, ifs, iip, iw, iht, iuid, idth, itk, some dt⟩ with hmd
    have h01 : dGetStr md "id" = some iid := rfl
    have h02 : dGetStr md "filename" = some ifn := rfl
    have h03 : dGetStr md "storage_key" = some isk := rfl
    have h04 : dGetStr md "content_type" = some ict := rfl
    have h05 : dGetInt md "file_size" = some ifs := rfl
    have h06 : dGetStr md "upload_ip" = some iip := rfl
    have h07 : dGetOptInt md "width" = some iw := by cases iw <;> rfl
    have h08 : dGetOptInt md "height" = some iht := by cases iht <;> rfl
    have h09 : dGetOptStr md "user_id" = some iuid := by cases iuid <;> rfl
    have h10 : dGetOptStr md "delete_token_hash" = some idth := by
      cases idth <;> rfl
    have h11 : dGetOptStr md "thumbnail_key" = some itk := by cases itk <;> rfl
    have h12 : md.lookup "created_at" = some (JVal.jstr (isoformat dt)) := rfl
    unfold dictToImage
    rw [h01, h02, h03, h04, h05, h06, h07, h08, h09, h10, h11, h12]
    simp [hiso]

/-- C3: writing an image's metadata through the cache and reading it back
on the hit path returns the dict unchanged, and `_dict_to_image` rebuilds
the exact image — the `created_at` string is parsed back into a genuine
datetime value equal to the original, not left as a string. -/
theorem cache_roundtrip_preserves_image (pfx : String) (dflt : Int)
    (st : CStore) (imageId : String) (img : Image) (ttl : Option Int)
    (himg : img.wf) (httl : 0 < effectiveTtl ttl dflt) :
    ((getImageMetadata pfx
        (setImageMetadata pfx dflt st imageId (imageToDict img) ttl).1
        imageId).2 = some (imageToDict img)) ∧
    dictToImage (imageToDict img) = some img := by
  constructor
  · unfold setImageMetadata getImageMetadata
    rw [if_neg (by omega)]
    simp
  · exact dictToImage_imageToDict img himg

/-- Witness for C3 at `sampleImage`. -/
theorem cache_roundtrip_preserves_image_witness :
    (sampleImage.wf ∧ (0 : Int) < effectiveTtl none 3600) ∧
    ((getImageMetadata "chitram"
        (setImageMetadata "chitram" 3600 (fun _ => none) "img1"
          (imageToDict sampleImage) none).1
        "img1").2 = some (imageToDict sampleImage)) ∧
    dictToImage (imageToDict sampleImage) = some sampleImage := by
  have hwf : sampleImage.wf := by
    intro d hd
    injection hd with hd
    rw [← hd]
    decide
  have h := cache_roundtrip_preserves_image "chitram" 3600 (fun _ => none)
      "img1" sampleImage none hwf (by decide)
  exact ⟨⟨hwf, by decide⟩, h.1, h.2⟩

/-- C2 counterexample: the owner deletes `sampleOwnedImage` while the
storage backend's delete raises a non-not-found error; the flow returns
success (`.ok (True, "deleted")`) and completes the DB deletion (with an
orphan warning logged) instead of surfacing the storage error. -/
theorem imageDelete_swallows_storage_error :
    imageDelete (fun _ _ => false) (some sampleOwnedImage)
        (Except.error StorageErr.other) (some [117]) none =
      Except.ok ((true, "deleted"),
        { dbDeleted := true, cacheInvalidated := true, warnedOrphan := true }) := by
  rfl

/-- C2 (amended): every `StorageService` verb is a passthrough — a
backend error, not-found or otherwise, is surfaced unchanged to the
caller — but the image-delete flow is an exception by design: it catches
a storage delete failure, logs an orphan warning, and proceeds with cache
invalidation and the DB deletion, reporting success. -/
theorem storage_errors_surface_except_image_delete
    (rs : Except StorageErr Str) (rb : Except StorageErr Blob)
    (rd re : Except StorageErr Bool)
    (verify : Str → Str → Bool) (img : Image) (user_id delete_token : Option Str)
    (e : StorageErr)
    (hauth : (canDelete verify img user_id delete_token).1 = true) :
    (storageServiceSave rs = rs ∧ storageServiceGet rb = rb ∧
     storageServiceDelete rd = rd ∧ storageServiceExists re = re) ∧
    imageDelete verify (some img) (Except.error e) user_id delete_token =
      Except.ok ((true, "deleted"), ⟨true, true, true⟩) := by
  refine ⟨⟨rfl, rfl, rfl, rfl⟩, ?_⟩
  simp [imageDelete, hauth]

/-- Witness for the amended C2 theorem: the owner path with a failing
storage delete. -/
theorem storage_errors_surface_except_image_delete_witness :
    ((canDelete (fun _ _ => false) sampleOwnedImage (some [117]) none).1 = true) ∧
    imageDelete (fun _ _ => false) (some sampleOwnedImage)
        (Except.error StorageErr.other) (some [117]) none =
      Except.ok ((true, "deleted"), ⟨true, true, true⟩) := by
  have h := storage_errors_surface_except_image_delete
      (Except.ok [107]) (Except.ok []) (Except.ok true) (Except.ok true)
      (fun _ _ => false) sampleOwnedImage (some [117]) none StorageErr.other
      (by rfl)
  exact ⟨by rfl, h.2⟩

/-- C6: MinIO boot verifies the bucket exactly once — creating it when
absent — and the check is bounded by the configured startup timeout: a
store whose bucket check outlasts the timeout makes boot fail with a
timeout error rather than hang. -/
theorem minio_startup_bounded (startupTimeout : Nat) (bucket : String)
    (env : MinioBootEnv) :
    (startupTimeout ≤ env.checkDuration →
      minioCreate startupTimeout bucket env = Except.error BootFailure.timedOut) ∧
    (env.checkDuration < startupTimeout → env.makeBucketError = none →
      minioCreate startupTimeout bucket env =
        Except.ok ⟨bucket, 1, !env.bucketExists⟩) := by
  constructor
  · intro hslow
    unfold minioCreate ensureBucketAsync
    rw [if_pos hslow]
  · intro hfast hmk
    unfold minioCreate ensureBucketAsync
    rw [if_neg (by omega)]
    cases hex : env.bucketExists with
    | true =>
        rw [if_pos rfl]
        rfl
    | false =>
        rw [if_neg (by simp)]
        rw [hmk]
        rfl

/-- Witness for C6: a 10-second timeout against a 3-second healthy store
without the bucket, and against a 60-second (unreachable) store. -/
theorem minio_startup_bounded_witness :
    (10 ≤ (⟨false, 60, none⟩ : MinioBootEnv).checkDuration ∧
      minioCreate 10 "images" ⟨false, 60, none⟩ =
        Except.error BootFailure.timedOut) ∧
    ((⟨false, 3, none⟩ : MinioBootEnv).checkDuration < 10 ∧
      minioCreate 10 "images" ⟨false, 3, none⟩ =
        Except.ok ⟨"images", 1, true⟩) := by
  have h1 := (minio_startup_bounded 10 "images" ⟨false, 60, none⟩).1 (by decide)
  have h2 := (minio_startup_bounded 10 "images" ⟨false, 3, none⟩).2 (by decide) rfl
  exact ⟨⟨by decide, h1⟩, by decide, h2⟩

end Chitram
